import Mathlib

/-!
# Verification of the poi-collector tile downloader and POI store

Shallow embedding of the Rust sources under `src/src-tauri/src/`:

* `tile_downloader/types.rs` — `TileCoord`, `Bounds`, `Bounds::is_valid`
* `tile_downloader/database.rs` — the `tile_progress` table operations
  (`init_tile_progress`, `mark_tile_completed`, `mark_tile_failed`,
  `reset_failed_tiles`, `get_pending_tiles`, `get_tile_stats`) and the
  task-status writes (`update_task_status`, `set_task_completed`)
* `tile_downloader/downloader.rs` — `calculate_tiles`, `estimate_tiles`,
  the driver loop of `TileDownloader::start_download`, and the per-tile
  retry loop `download_tile_with_url`
* `tile_downloader/commands.rs` — `cancel_tile_download`, `retry_failed_tiles`
* `tile_downloader/storage/mbtiles.rs` — `flip_y`, `save_tile`
* `tile_downloader/platforms/bing.rs` — `tile_to_quadkey`
* `coords.rs` — `gcj02_to_wgs84`, `out_of_china`
* `database.rs` — `insert_poi` over `poi_data` with
  `UNIQUE(platform, name, lon, lat)` and `INSERT OR IGNORE`

Machine floats (`f64`) are embedded as real numbers; `u32`/`u64`
arithmetic that can wrap is embedded as integer arithmetic with an
explicit `% 2^32` / `% 2^64` (the release-mode wrapping semantics).
The SQLite tables are embedded as association lists keyed by the
primary key of the corresponding table.
-/

open Real

/-- `TileCoord` from `types.rs`: `{z, x, y : u32}`. -/
structure TileCoord where
  z : ℕ
  x : ℕ
  y : ℕ
deriving DecidableEq, Repr

/-- `Bounds` from `types.rs`: four `f64` fields, embedded as reals. -/
structure Bounds where
  north : ℝ
  south : ℝ
  east : ℝ
  west : ℝ

/-- `Bounds::is_valid` from `types.rs` lines 171-175, verbatim conjunction. -/
def Bounds.is_valid (b : Bounds) : Prop :=
  b.north > b.south ∧ b.east > b.west
    ∧ b.north ≤ 85.0511 ∧ b.south ≥ -85.0511
    ∧ b.east ≤ 180 ∧ b.west ≥ -180

/-- Status of one `tile_progress` row (`types.rs` `TileStatus`,
`database.rs` column `status ∈ {'pending','completed','failed'}`). -/
inductive TStatus where
  | pending
  | completed
  | failed
deriving DecidableEq, Repr

/-- One row of the `tile_progress` table (for a fixed `task_id`):
columns `status`, `retry_count`, `error_message`, `downloaded_at`.
The `downloaded_at` SQL timestamp is abstracted to a natural-number
clock value. -/
structure TileRow where
  status : TStatus
  retry_count : ℕ
  error_message : Option String
  downloaded_at : Option ℕ
deriving DecidableEq, Repr

/-- The `tile_progress` rows of one task, keyed by `(z,x,y)`
(primary key `(task_id,z,x,y)` restricted to one task). -/
abbrev ProgressRows := List (TileCoord × TileRow)

/-- The task's row in `tile_download_tasks`, restricted to the fields the
claims are about: `status`, and the cached counters `completed_tiles`,
`failed_tiles`. -/
structure TaskStore where
  rows : ProgressRows
  task_status : String
  completed_tiles : ℕ
  failed_tiles : ℕ
deriving DecidableEq, Repr

/-- `TileDatabase::init_tile_progress` (`database.rs` lines 295-314):
inside a single transaction it first runs
`DELETE FROM tile_progress WHERE task_id = ?` and then inserts one row
`(task_id, z, x, y, 'pending')` per tile.  The deleted prior rows do not
appear in the result: the function discards whatever rows existed. -/
def init_tile_progress (tiles : List TileCoord) : ProgressRows :=
  tiles.map fun c => (c, ⟨TStatus.pending, 0, none, none⟩)

/-- `TileDatabase::get_pending_tiles` (`database.rs` lines 317-336):
`SELECT z,x,y FROM tile_progress WHERE task_id = ? AND status='pending'
LIMIT ?`. -/
def get_pending_tiles (rows : ProgressRows) (limit : ℕ) : List TileCoord :=
  ((rows.filter fun r => r.2.status = TStatus.pending).map Prod.fst).take limit

/-- `TileDatabase::get_tile_stats` (`database.rs` lines 389-410):
`(pending, completed, failed)` counts over the task's rows. -/
def get_tile_stats (rows : ProgressRows) : ℕ × ℕ × ℕ :=
  ((rows.filter fun r => r.2.status = TStatus.pending).length,
   (rows.filter fun r => r.2.status = TStatus.completed).length,
   (rows.filter fun r => r.2.status = TStatus.failed).length)

/-- `TileDatabase::mark_tile_completed` (`database.rs` lines 361-368):
`UPDATE tile_progress SET status='completed', downloaded_at = now WHERE
task_id = ? AND z = ? AND x = ? AND y = ?`. -/
def mark_tile_completed (rows : ProgressRows) (c : TileCoord) (now : ℕ) : ProgressRows :=
  rows.map fun r =>
    if r.1 = c then (r.1, { r.2 with status := TStatus.completed, downloaded_at := some now })
    else r

/-- `TileDatabase::mark_tile_failed` (`database.rs` lines 371-377):
`UPDATE tile_progress SET status='failed', error_message = ?,
retry_count = retry_count + 1 WHERE ...`. -/
def mark_tile_failed (rows : ProgressRows) (c : TileCoord) (err : String) : ProgressRows :=
  rows.map fun r =>
    if r.1 = c then
      (r.1, { r.2 with status := TStatus.failed, error_message := some err,
                       retry_count := r.2.retry_count + 1 })
    else r

/-- The effect of the `reset_failed_tiles` UPDATE on a single row: a
failed row becomes pending with its `error_message` cleared; any other
row is untouched. -/
def reset_row (r : TileCoord × TileRow) : TileCoord × TileRow :=
  if r.2.status = TStatus.failed then
    (r.1, { r.2 with status := TStatus.pending, error_message := none })
  else r

/-- `TileDatabase::reset_failed_tiles` (`database.rs` lines 380-386):
`UPDATE tile_progress SET status='pending', error_message=NULL WHERE
task_id = ? AND status='failed'`; returns the number of updated rows
(the rusqlite `execute` change count). -/
def reset_failed_tiles (rows : ProgressRows) : ProgressRows × ℕ :=
  (rows.map reset_row,
   (rows.filter fun r => r.2.status = TStatus.failed).length)

/-- `update_task_status` (`database.rs` lines 227-234) on the task row. -/
def update_task_status (st : TaskStore) (s : String) : TaskStore :=
  { st with task_status := s }

/-- `set_task_completed` (`database.rs` lines 252-259): sets
`status = 'completed'` (and `completed_at`, not modelled). -/
def set_task_completed (st : TaskStore) : TaskStore :=
  { st with task_status := "completed" }

/-- `cancel_tile_download` (`commands.rs` lines 230-237): stops the
in-memory state (modelled by the driver environment below) and writes
`update_task_status(task_id, "cancelled")`. -/
def cancel_tile_download (st : TaskStore) : TaskStore :=
  update_task_status st "cancelled"

/-- `retry_failed_tiles` (`commands.rs` lines 290-301): resets the failed
rows via `reset_failed_tiles`, writes `update_task_status(task_id,
"pending")`, and returns the reset count. -/
def retry_failed_tiles (st : TaskStore) : TaskStore × ℕ :=
  let r := reset_failed_tiles st.rows
  ({ st with rows := r.1, task_status := "pending" }, r.2)

/-- Environment of one `start_download` run (`downloader.rs`):
`is_paused i` / `stopped i` are the values the driver loop reads from the
`DownloaderState` atomics at the top of iteration `i`; `succeed c` is
whether the HTTP download and storage write of tile `c` succeed during
this run. -/
structure DriverEnv where
  is_paused : ℕ → Bool
  stopped : ℕ → Bool
  succeed : TileCoord → Bool

/-- One batch of `download_tile_with_url` outcomes (`downloader.rs`
lines 236-268): each tile of the batch is marked completed
(`mark_tile_completed`) or failed (`mark_tile_failed`); the
`downloaded_at` timestamp is the iteration counter. -/
def process_batch (env : DriverEnv) (i : ℕ) (rows : ProgressRows)
    (batch : List TileCoord) : ProgressRows :=
  batch.foldl
    (fun rs c =>
      if env.succeed c then mark_tile_completed rs c i
      else mark_tile_failed rs c ("HTTP 500")) rows

/-- The driver loop of `TileDownloader::start_download`
(`downloader.rs` lines 201-293), fuel-indexed.  Per iteration: if the
pause flag is set, sleep and continue; if the running flag is cleared
(stop), break; fetch up to `2 * thread_count` pending tiles and process
the first `thread_count`; if no tile is pending and
`completed + failed ≥ total`, break.  Returns `none` when the fuel runs
out before the loop exits. -/
def driver_loop (env : DriverEnv) (thread_count total : ℕ) :
    ℕ → ℕ → ProgressRows → Option ProgressRows
  | 0, _, _ => none
  | fuel + 1, i, rows =>
    if env.is_paused i then driver_loop env thread_count total fuel (i + 1) rows
    else if env.stopped i then some rows
    else
      let pending := get_pending_tiles rows (thread_count * 2)
      if pending.isEmpty then
        let stats := get_tile_stats rows
        if total ≤ stats.2.1 + stats.2.2 then some rows
        else driver_loop env thread_count total fuel (i + 1) rows
      else
        driver_loop env thread_count total fuel (i + 1)
          (process_batch env i rows (pending.take thread_count))

/-- `TileDownloader::start_download` (`downloader.rs` lines 145-341)
restricted to its persistent effects on the progress store.  Whatever
`prior` rows the task already has, the run begins with
`init_tile_progress` (line 173, called unconditionally), sets the task
status to `"downloading"` (line 177), runs the driver loop, and on loop
exit (lines 301-311) writes the final status: `set_task_completed` when
`failed = 0`, otherwise `update_task_status "completed"` — both write
`'completed'`.  The in-memory `completed`/`failed` atomics equal the row
counts because every row starts out pending after the
re-initialization. -/
def start_download (env : DriverEnv) (tiles : List TileCoord)
    (thread_count fuel : ℕ) (prior : ProgressRows) : Option TaskStore :=
  let _ := prior
  let rows0 := init_tile_progress tiles
  let total := tiles.length
  match driver_loop env thread_count total fuel 0 rows0 with
  | none => none
  | some rows =>
    let stats := get_tile_stats rows
    let st : TaskStore := ⟨rows, "downloading", stats.2.1, stats.2.2⟩
    some (if st.failed_tiles = 0 then set_task_completed st
          else update_task_status st "completed")

/-- A driver environment that runs to completion: never paused, never
stopped, every download succeeds. -/
def happyEnv : DriverEnv := ⟨fun _ => false, fun _ => false, fun _ => true⟩

/-- A driver environment in which a stop request is observed from the
first loop iteration on (the `cancel_tile_download` command cleared
`is_running` before the driver's first check). -/
def stoppedEnv : DriverEnv := ⟨fun _ => false, fun _ => true, fun _ => true⟩

/-- The prior progress rows of a resuming task: one tile, already
completed, downloaded at time 5. -/
def resumingRows : ProgressRows :=
  [(⟨0, 0, 0⟩, ⟨TStatus.completed, 0, none, some 5⟩)]

/-- C1 (code bug, failing input): the spec says that for a resuming task
`start_download` skips the initial population of the progress table, so
every existing row — status and `downloaded_at` — stays unchanged and no
completed tile is downloaded again.  The code calls
`init_tile_progress` unconditionally (`downloader.rs` line 173), and
`init_tile_progress` deletes the task's rows before re-inserting them
all as pending (`database.rs` line 300).  Evaluated at the failing
input: a task whose single tile is already completed with
`downloaded_at = 5` is wiped back to pending by the initialization, and
the run then re-downloads it, leaving `downloaded_at = 0 ≠ 5`. -/
theorem C1_resumption_reinitializes :
    init_tile_progress [⟨0, 0, 0⟩]
        = [(⟨0, 0, 0⟩, ⟨TStatus.pending, 0, none, none⟩)]
      ∧ start_download happyEnv [⟨0, 0, 0⟩] 4 3 resumingRows
        = some ⟨[(⟨0, 0, 0⟩, ⟨TStatus.completed, 0, none, some 0⟩)],
                "completed", 1, 0⟩
      ∧ (start_download happyEnv [⟨0, 0, 0⟩] 4 3 resumingRows).map
          (fun st => st.rows.map fun r => r.2.downloaded_at)
        ≠ some (resumingRows.map fun r => r.2.downloaded_at) := by
  refine ⟨rfl, rfl, ?_⟩
  decide

/-- C2 (code bug, failing input): the spec says a task's status is never
set to `'completed'` while `completed + failed < total`, and that on
stop the task goes `downloading → cancelled`.  The cancel command does
write `'cancelled'` (`commands.rs` line 234), but when the driver loop
exits because of the stop it unconditionally writes `'completed'`
(`downloader.rs` lines 305-309, both branches).  Evaluated at the
failing input: a 2-tile task stopped before any tile was processed ends
the run with status `'completed'` and `completed + failed = 0 < 2`. -/
theorem C2_stop_writes_completed :
    (cancel_tile_download ⟨init_tile_progress [⟨0, 0, 0⟩, ⟨0, 0, 1⟩],
        "downloading", 0, 0⟩).task_status = "cancelled"
      ∧ (start_download stoppedEnv [⟨0, 0, 0⟩, ⟨0, 0, 1⟩] 4 3 []).map
          TaskStore.task_status = some "completed"
      ∧ (start_download stoppedEnv [⟨0, 0, 0⟩, ⟨0, 0, 1⟩] 4 3 []).map
          (fun st => st.completed_tiles + st.failed_tiles) = some 0 := by
  exact ⟨rfl, rfl, rfl⟩

/-- Counting and frame facts about `reset_failed_tiles`, by induction on
the row list: afterwards no row is failed, the completed count is
preserved, and the pending count gains exactly the failed count. -/
theorem reset_failed_tiles_counts (rows : ProgressRows) :
    ((reset_failed_tiles rows).1.filter fun r => r.2.status = TStatus.failed).length = 0
    ∧ ((reset_failed_tiles rows).1.filter fun r => r.2.status = TStatus.completed).length
        = (rows.filter fun r => r.2.status = TStatus.completed).length
    ∧ ((reset_failed_tiles rows).1.filter fun r => r.2.status = TStatus.pending).length
        = (rows.filter fun r => r.2.status = TStatus.pending).length
          + (rows.filter fun r => r.2.status = TStatus.failed).length := by
  simp only [reset_failed_tiles]
  have hfi : ∀ {α : Type} (a b : α), (if (false : Bool) = true then a else b) = b :=
    fun a b => rfl
  have hti : ∀ {α : Type} (a b : α), (if (true : Bool) = true then a else b) = a :=
    fun a b => rfl
  induction rows with
  | nil => simp
  | cons hd tl ih =>
    obtain ⟨ih1, ih2, ih3⟩ := ih
    rcases hst : hd.2.status
    case pending =>
      have hr : reset_row hd = hd := by simp [reset_row, hst]
      have dp : decide (hd.2.status = TStatus.pending) = true := by rw [hst]; decide
      have dc : decide (hd.2.status = TStatus.completed) = false := by rw [hst]; decide
      have df : decide (hd.2.status = TStatus.failed) = false := by rw [hst]; decide
      simp only [List.map_cons, hr, List.filter_cons, dp, dc, df, hfi, hti,
        if_true, if_false, eq_self_iff_true, List.length_cons]
      omega
    case completed =>
      have hr : reset_row hd = hd := by simp [reset_row, hst]
      have dp : decide (hd.2.status = TStatus.pending) = false := by rw [hst]; decide
      have dc : decide (hd.2.status = TStatus.completed) = true := by rw [hst]; decide
      have df : decide (hd.2.status = TStatus.failed) = false := by rw [hst]; decide
      simp only [List.map_cons, hr, List.filter_cons, dp, dc, df, hfi, hti,
        if_true, if_false, eq_self_iff_true, List.length_cons]
      omega
    case failed =>
      have hr : reset_row hd
          = (hd.1, { hd.2 with status := TStatus.pending, error_message := none }) := by
        simp [reset_row, hst]
      have dp : decide (hd.2.status = TStatus.pending) = false := by rw [hst]; decide
      have dc : decide (hd.2.status = TStatus.completed) = false := by rw [hst]; decide
      have df : decide (hd.2.status = TStatus.failed) = true := by rw [hst]; decide
      have e1 : decide (TStatus.pending = TStatus.failed) = false := by decide
      have e2 : decide (TStatus.pending = TStatus.pending) = true := by decide
      have e3 : decide (TStatus.pending = TStatus.completed) = false := by decide
      have e4 : decide True = true := by decide
      simp only [List.map_cons, hr, List.filter_cons, dp, dc, df, e1, e2, e3, e4, hfi, hti,
        if_true, if_false, eq_self_iff_true, List.length_cons]
      omega

/-- C5 (confirmed): `retry_failed_tiles` returns the number F of failed
rows, resets exactly those rows to pending with their `error_message`
cleared (their `retry_count` and `downloaded_at` are untouched), leaves
every completed row — status and `downloaded_at` — and every pending row
unchanged, and sets the task status to `"pending"`; afterwards the store
holds `F` more pending rows, the same completed rows, and no failed
row. -/
theorem C5_retry_failed_frame (st : TaskStore) :
    (retry_failed_tiles st).2
        = (st.rows.filter fun r => r.2.status = TStatus.failed).length
    ∧ (retry_failed_tiles st).1.task_status = "pending"
    ∧ (∀ i, (retry_failed_tiles st).1.rows.get? i = (st.rows.get? i).map fun r =>
        if r.2.status = TStatus.failed then
          (r.1, ⟨TStatus.pending, r.2.retry_count, none, r.2.downloaded_at⟩)
        else r)
    ∧ (∀ i r, st.rows.get? i = some r → r.2.status = TStatus.completed →
        (retry_failed_tiles st).1.rows.get? i = some r)
    ∧ ((retry_failed_tiles st).1.rows.filter fun r =>
        r.2.status = TStatus.failed).length = 0
    ∧ ((retry_failed_tiles st).1.rows.filter fun r =>
        r.2.status = TStatus.completed).length
        = (st.rows.filter fun r => r.2.status = TStatus.completed).length
    ∧ ((retry_failed_tiles st).1.rows.filter fun r =>
        r.2.status = TStatus.pending).length
        = (st.rows.filter fun r => r.2.status = TStatus.pending).length
          + (st.rows.filter fun r => r.2.status = TStatus.failed).length := by
  obtain ⟨h1, h2, h3⟩ := reset_failed_tiles_counts st.rows
  have hmap : (retry_failed_tiles st).1.rows = st.rows.map fun r =>
      if r.2.status = TStatus.failed then
        (r.1, ⟨TStatus.pending, r.2.retry_count, none, r.2.downloaded_at⟩)
      else r := rfl
  refine ⟨rfl, rfl, ?_, ?_, h1, h2, h3⟩
  · intro i
    rw [hmap, List.get?_map]
  · intro i r hi hr
    rw [hmap, List.get?_map, hi, Option.map_some']
    have : r.2.status ≠ TStatus.failed := by rw [hr]; intro h; cases h
    simp [this]

/-- C5 witness: the theorem applied to a concrete store with one failed,
one completed and one pending row. -/
theorem C5_retry_failed_frame_witness :
    (retry_failed_tiles ⟨[(⟨1, 2, 3⟩, ⟨TStatus.failed, 2, some ("HTTP 500"), none⟩),
        (⟨1, 2, 4⟩, ⟨TStatus.completed, 0, none, some 7⟩),
        (⟨1, 2, 5⟩, ⟨TStatus.pending, 0, none, none⟩)], "completed", 1, 1⟩).2 = 1
    ∧ (retry_failed_tiles ⟨[(⟨1, 2, 3⟩, ⟨TStatus.failed, 2, some ("HTTP 500"), none⟩),
        (⟨1, 2, 4⟩, ⟨TStatus.completed, 0, none, some 7⟩),
        (⟨1, 2, 5⟩, ⟨TStatus.pending, 0, none, none⟩)], "completed", 1, 1⟩).1.rows.get? 1
      = some (⟨1, 2, 4⟩, ⟨TStatus.completed, 0, none, some 7⟩) := by
  constructor
  · exact (C5_retry_failed_frame _).1
  · exact (C5_retry_failed_frame _).2.2.2.1 1 _ rfl rfl

/-- One key of the `poi_data` table's uniqueness constraint
`UNIQUE(platform, name, lon, lat)` (`database.rs` line 105): platform,
name, and the stored WGS84 longitude/latitude (`f64`, embedded as ℚ
since only equality of stored values matters here). -/
abbrev PoiKey := String × String × ℚ × ℚ

/-- `Database::insert_poi` (`database.rs` lines 253-273) restricted to
the uniqueness key: `INSERT OR IGNORE INTO poi_data ...` returns
`Ok(rows > 0)`.  A duplicate key inserts nothing and reports `false`;
the constraint violation is swallowed by `OR IGNORE`, never surfaced as
an error (the function is total — there is no error case to model). -/
def insert_poi (store : List PoiKey) (k : PoiKey) : List PoiKey × Bool :=
  if k ∈ store then (store, false) else (store ++ [k], true)

/-- `insert_poi` iterated n times with the same key. -/
def insert_poi_times (store : List PoiKey) (k : PoiKey) : ℕ → List PoiKey
  | 0 => store
  | n + 1 => (insert_poi (insert_poi_times store k n) k).1

theorem insert_poi_times_eq (store : List PoiKey) (k : PoiKey) (hk : k ∉ store) :
    ∀ n, 1 ≤ n → insert_poi_times store k n = store ++ [k] := by
  intro n hn
  induction n with
  | zero => omega
  | succ m ih =>
    rcases Nat.eq_zero_or_pos m with hm | hm
    · subst hm
      simp [insert_poi_times, insert_poi, hk]
    · have h := ih hm
      simp [insert_poi_times, h, insert_poi]

/-- C4 (confirmed): POI inserts are insert-or-ignore on the key
`(platform, name, wgs_lon, wgs_lat)`.  For a key not yet stored, the
first insert reports saved and appends exactly one row; inserting the
same key N ≥ 1 times leaves exactly one stored row with that key; and
any insert of an already-present key reports not saved and leaves the
store unchanged (no error is raised: `insert_poi` is total). -/
theorem C4_poi_dedup (store : List PoiKey) (k : PoiKey) (hk : k ∉ store) :
    (insert_poi store k).2 = true
    ∧ (insert_poi store k).1 = store ++ [k]
    ∧ (∀ s, k ∈ s → insert_poi s k = (s, false))
    ∧ ∀ n, 1 ≤ n → (insert_poi_times store k n).count k = 1 := by
  refine ⟨by simp [insert_poi, hk], by simp [insert_poi, hk], ?_, ?_⟩
  · intro s hs
    simp [insert_poi, hs]
  · intro n hn
    rw [insert_poi_times_eq store k hk n hn, List.count_append]
    rw [List.count_eq_zero.mpr hk]
    simp

/-- C4 witness: the theorem applied to the empty store and the key of
scenario S4 (`platform="a"`, `name="X"`, lon 120.1, lat 30.2). -/
theorem C4_poi_dedup_witness :
    ((("a", "X", (120.1 : ℚ), (30.2 : ℚ)) : PoiKey) ∉ ([] : List PoiKey))
    ∧ (insert_poi [] (("a", "X", (120.1 : ℚ), (30.2 : ℚ)) : PoiKey)).2 = true
    ∧ (insert_poi_times [] (("a", "X", (120.1 : ℚ), (30.2 : ℚ)) : PoiKey) 2).count
        (("a", "X", (120.1 : ℚ), (30.2 : ℚ)) : PoiKey) = 1 := by
  refine ⟨by decide, (C4_poi_dedup _ _ (by decide)).1, ?_⟩
  exact (C4_poi_dedup _ _ (by decide)).2.2.2 2 (by norm_num)

/-- `MbtilesStorage::flip_y` (`mbtiles.rs` lines 25-27):
`(1u32 << z) - 1 - y`. -/
def flip_y (z y : ℕ) : ℕ := 2 ^ z - 1 - y

/-- The `(zoom_level, tile_column, tile_row)` triple that
`MbtilesStorage::save_tile` (`mbtiles.rs` lines 115-129) inserts into
the `tiles` table for a coordinate: `(coord.z, coord.x, flip_y z y)`. -/
def save_tile_row (c : TileCoord) : ℕ × ℕ × ℕ := (c.z, c.x, flip_y c.z c.y)

/-- C7 (confirmed): every saved tile is stored with `zoom_level = z`,
`tile_column = x` and the TMS-flipped row `tile_row = 2^z - 1 - y`; the
stored row index is itself below `2^z` and determines `y` uniquely
(`tile_row + y = 2^z - 1`).  The hypotheses keep the embedding inside
the u32 domain of the Rust code (`1u32 << z`, and `y` in the enumerated
range `[0, 2^z)`). -/
theorem C7_mbtiles_flip (z x y : ℕ) (hy : y < 2 ^ z) (_hz : z < 32) :
    save_tile_row ⟨z, x, y⟩ = (z, x, 2 ^ z - 1 - y)
    ∧ (save_tile_row ⟨z, x, y⟩).2.2 + y = 2 ^ z - 1
    ∧ (save_tile_row ⟨z, x, y⟩).2.2 < 2 ^ z := by
  have h1 : 1 ≤ 2 ^ z := Nat.one_le_two_pow
  refine ⟨rfl, ?_, ?_⟩ <;> simp only [save_tile_row, flip_y] <;> omega

/-- C7 witness: scenario S3 — coordinate `(z=10, x=500, y=300)` is
stored as `(zoom_level=10, tile_column=500, tile_row=723)`. -/
theorem C7_mbtiles_flip_witness :
    (300 < 2 ^ 10 ∧ 10 < 32) ∧ save_tile_row ⟨10, 500, 300⟩ = (10, 500, 723) := by
  refine ⟨by norm_num, ?_⟩
  have h := (C7_mbtiles_flip 10 500 300 (by norm_num) (by norm_num)).1
  rw [h]
  norm_num

/-- `BingPlatform::tile_to_quadkey` (`bing.rs` lines 14-28), as the list
of characters pushed by the loop `for i in (1..=z).rev()`: the digit for
index `i` is `(x bit (i-1) ? 1 : 0) + (y bit (i-1) ? 2 : 0)`, appended
as the character `'0' + digit`, most significant bit first. -/
def quadkey_chars (z x y : ℕ) : List Char :=
  match z with
  | 0 => []
  | n + 1 =>
    Char.ofNat (Char.toNat '0'
        + ((if Nat.testBit x n then 1 else 0) + (if Nat.testBit y n then 2 else 0)))
      :: quadkey_chars n x y

/-- `BingPlatform::tile_to_quadkey` result string. -/
def tile_to_quadkey (z x y : ℕ) : String := String.mk (quadkey_chars z x y)

/-- Modelled from the spec: the repository contains no quadkey decoder;
spec §4.4 defines the encoding (base-4 digits, bit i contributing
`(x_bit ? 1 : 0) + (y_bit ? 2 : 0)`, MSB to LSB) and §8 property 4 asks
that decoding yield back `(z,x,y)`.  The decoder reads the digits MSB
first, taking the x bit from `digit % 2` and the y bit from
`digit / 2`; the zoom level is the string length. -/
def quadkey_decode_fold : List Char → ℕ × ℕ → ℕ × ℕ
  | [], p => p
  | c :: rest, (a, b) =>
    quadkey_decode_fold rest
      (2 * a + (Char.toNat c - Char.toNat '0') % 2,
       2 * b + (Char.toNat c - Char.toNat '0') / 2)

/-- Modelled from the spec: quadkey decoding (see
`quadkey_decode_fold`). -/
def quadkey_decode (s : String) : ℕ × ℕ × ℕ :=
  ((s.data.length, (quadkey_decode_fold s.data (0, 0)).1,
    (quadkey_decode_fold s.data (0, 0)).2) : ℕ × ℕ × ℕ)

theorem quadkey_chars_length (z x y : ℕ) : (quadkey_chars z x y).length = z := by
  induction z with
  | zero => rfl
  | succ n ih => simp [quadkey_chars, ih]

theorem mod_two_pow_succ (x n : ℕ) :
    x % 2 ^ (n + 1) = x / 2 ^ n % 2 * 2 ^ n + x % 2 ^ n := by
  have hP : 0 < 2 ^ n := Nat.pos_pow_of_pos n (by norm_num)
  have hq := Nat.div_add_mod (x / 2 ^ n) 2
  have hb : x / 2 ^ n % 2 ≤ 1 := by omega
  have hr : x % 2 ^ n < 2 ^ n := Nat.mod_lt _ hP
  conv_lhs => rw [← Nat.div_add_mod x (2 ^ n)]
  rw [pow_succ]
  calc (2 ^ n * (x / 2 ^ n) + x % 2 ^ n) % (2 ^ n * 2)
      = (2 ^ n * (2 * (x / 2 ^ n / 2) + x / 2 ^ n % 2) + x % 2 ^ n) % (2 ^ n * 2) := by
        rw [hq]
    _ = (x / 2 ^ n % 2 * 2 ^ n + x % 2 ^ n + 2 ^ n * 2 * (x / 2 ^ n / 2)) % (2 ^ n * 2) := by
        ring_nf
    _ = (x / 2 ^ n % 2 * 2 ^ n + x % 2 ^ n) % (2 ^ n * 2) :=
        Nat.add_mul_mod_self_left _ _ _
    _ = x / 2 ^ n % 2 * 2 ^ n + x % 2 ^ n := Nat.mod_eq_of_lt (by nlinarith)

theorem quadkey_decode_fold_spec (z x y : ℕ) : ∀ a b,
    quadkey_decode_fold (quadkey_chars z x y) (a, b)
      = (a * 2 ^ z + x % 2 ^ z, b * 2 ^ z + y % 2 ^ z) := by
  induction z with
  | zero =>
    intro a b
    simp [quadkey_chars, quadkey_decode_fold, Nat.mod_one]
  | succ n ih =>
    intro a b
    have hxbit : (if Nat.testBit x n then 1 else 0) = x / 2 ^ n % 2 := by
      rw [Nat.testBit_to_div_mod]
      rcases Nat.mod_two_eq_zero_or_one (x / 2 ^ n) with h | h <;> simp [h]
    have hybit : (if Nat.testBit y n then 1 else 0) = y / 2 ^ n % 2 := by
      rw [Nat.testBit_to_div_mod]
      rcases Nat.mod_two_eq_zero_or_one (y / 2 ^ n) with h | h <;> simp [h]
    have hd : Char.toNat (Char.ofNat (Char.toNat '0'
        + ((if Nat.testBit x n then 1 else 0) + (if Nat.testBit y n then 2 else 0))))
        - Char.toNat '0'
        = (if Nat.testBit x n then 1 else 0) + (if Nat.testBit y n then 2 else 0) := by
      rcases hx : Nat.testBit x n <;> rcases hy : Nat.testBit y n <;> decide
    have hdigit : ((if Nat.testBit x n then 1 else 0) + (if Nat.testBit y n then 2 else 0)) % 2
          = (if Nat.testBit x n then 1 else 0)
        ∧ ((if Nat.testBit x n then 1 else 0) + (if Nat.testBit y n then 2 else 0)) / 2
          = (if Nat.testBit y n then 1 else 0) := by
      rcases Nat.testBit x n <;> rcases Nat.testBit y n <;> simp
    rw [quadkey_chars, quadkey_decode_fold, hd, hdigit.1, hdigit.2, ih]
    rw [hxbit, hybit, mod_two_pow_succ x n, mod_two_pow_succ y n, Prod.mk.injEq]
    constructor <;> ring

/-- C9 (confirmed): for every `(z,x,y)` with `z ≤ 20` and `x,y < 2^z`,
the quadkey produced by `tile_to_quadkey` is a string of length `z`, and
decoding it per spec §4.4 — digit at position i (MSB to LSB) equals
`(x_bit ? 1 : 0) + (y_bit ? 2 : 0)` — yields back exactly `(z,x,y)`.
The decoder is modelled from the spec; the repository has no decoder. -/
theorem C9_quadkey_round_trip (z x y : ℕ) (hz : z ≤ 20) (hx : x < 2 ^ z)
    (hy : y < 2 ^ z) :
    quadkey_decode (tile_to_quadkey z x y) = (z, x, y)
    ∧ (tile_to_quadkey z x y).length = z := by
  have _ := hz
  have hlen : (quadkey_chars z x y).length = z := quadkey_chars_length z x y
  have hfold := quadkey_decode_fold_spec z x y 0 0
  rw [Nat.mod_eq_of_lt hx, Nat.mod_eq_of_lt hy] at hfold
  constructor
  · have hdef : quadkey_decode (tile_to_quadkey z x y)
        = ((quadkey_chars z x y).length,
           (quadkey_decode_fold (quadkey_chars z x y) (0, 0)).1,
           (quadkey_decode_fold (quadkey_chars z x y) (0, 0)).2) := rfl
    rw [hdef, hlen, hfold]
    norm_num
  · simpa [tile_to_quadkey, String.length] using hlen

/-- C9 witness: the theorem applied at `(z,x,y) = (3,5,2)`. -/
theorem C9_quadkey_round_trip_witness :
    (3 ≤ 20 ∧ 5 < 2 ^ 3 ∧ 2 < 2 ^ 3)
    ∧ quadkey_decode (tile_to_quadkey 3 5 2) = (3, 5, 2) := by
  refine ⟨by norm_num, ?_⟩
  exact (C9_quadkey_round_trip 3 5 2 (by norm_num) (by norm_num) (by norm_num)).1

/-- Classification of an HTTP response status in
`download_tile_with_url` (`downloader.rs` lines 414-453):
`is_success()` (2xx), `is_client_error()` (4xx), or the remaining
branch (treated as 5xx). -/
inductive StatusClass where
  | success
  | clientError
  | serverError
deriving DecidableEq, Repr

/-- An HTTP response in the retry loop: its status class and, for 2xx
responses, the body outcome — `none` when `response.bytes()` fails,
`some saveOk` when the bytes are read and the storage writer's
`save_tile` returns Ok (`true`) or Err (`false`). -/
structure HttpResponse where
  cls : StatusClass
  body : Option Bool
deriving DecidableEq, Repr

/-- One attempt's network outcome: `none` is a transport error
(`request.send()` returned Err), `some r` a received response. -/
abbrev Attempt := Option HttpResponse

/-- A terminal per-tile record written to the progress store:
`mark_tile_completed` or `mark_tile_failed` with a reason. -/
inductive TileMark where
  | completed
  | failed (reason : String)
deriving DecidableEq, Repr

/-- Result of one per-tile run: the database marks written (the claims
require exactly one), the backoff delays slept in milliseconds, and the
number of attempts made. -/
structure DlResult where
  marks : List TileMark
  delays : List ℕ
  attempts : ℕ
deriving DecidableEq, Repr

/-- The retry loop of `download_tile_with_url` (`downloader.rs` lines
406-468).  `env i` is the outcome of attempt number `i` (0-based, equal
to the `retries` counter when the attempt is sent).  On 2xx: body read
Ok and save Ok marks completed; save Err marks failed immediately; body
read Err retries.  On 4xx: marks failed immediately.  Otherwise (5xx)
and on transport error: retries while `retries < max_retries`, else
marks failed.  Before each retry the loop sleeps
`1000 * 2^min(retries + 1, 4)` ms (the code increments `retries` first,
then sleeps `1000 * 2u64.pow(retries.min(4))`). -/
def download_loop (env : ℕ → Attempt) (max_retries : ℕ) (retries : ℕ) : DlResult :=
  match env retries with
  | none =>
    if max_retries ≤ retries then ⟨[TileMark.failed ("transport error")], [], retries + 1⟩
    else
      let r := download_loop env max_retries (retries + 1)
      ⟨r.marks, 1000 * 2 ^ min (retries + 1) 4 :: r.delays, r.attempts⟩
  | some resp =>
    match resp.cls with
    | StatusClass.success =>
      match resp.body with
      | some true => ⟨[TileMark.completed], [], retries + 1⟩
      | some false => ⟨[TileMark.failed ("save failed")], [], retries + 1⟩
      | none =>
        if max_retries ≤ retries then ⟨[TileMark.failed ("body read error")], [], retries + 1⟩
        else
          let r := download_loop env max_retries (retries + 1)
          ⟨r.marks, 1000 * 2 ^ min (retries + 1) 4 :: r.delays, r.attempts⟩
    | StatusClass.clientError => ⟨[TileMark.failed ("HTTP 4xx")], [], retries + 1⟩
    | StatusClass.serverError =>
      if max_retries ≤ retries then ⟨[TileMark.failed ("HTTP 5xx")], [], retries + 1⟩
      else
        let r := download_loop env max_retries (retries + 1)
        ⟨r.marks, 1000 * 2 ^ min (retries + 1) 4 :: r.delays, r.attempts⟩
termination_by max_retries + 1 - retries
decreasing_by all_goals omega

/-- `download_tile_with_url` (`downloader.rs` lines 386-469): when the
platform returned no URL the tile is marked failed without any attempt
(original message "不支持的地图类型", unsupported map type); otherwise the
retry loop runs with `retries = 0`. -/
def download_tile_with_url (url : Option String) (env : ℕ → Attempt)
    (max_retries : ℕ) : DlResult :=
  match url with
  | none => ⟨[TileMark.failed ("unsupported map type")], [], 0⟩
  | some _ => download_loop env max_retries 0

/-- Every path of the retry loop records exactly one terminal mark. -/
theorem download_loop_marks_aux :
    ∀ (n : ℕ) (env : ℕ → Attempt) (max_retries r : ℕ), max_retries + 1 - r ≤ n →
      (download_loop env max_retries r).marks.length = 1 := by
  intro n
  induction n with
  | zero =>
    intro env max_retries r h
    have hle : max_retries ≤ r := by omega
    rw [download_loop]
    rcases henv : env r with _ | ⟨cls, body⟩
    · simp [hle]
    · rcases cls
      case success =>
        rcases body with _ | b
        · simp [hle]
        · rcases b <;> simp
      case clientError => simp
      case serverError => simp [hle]
  | succ n ih =>
    intro env max_retries r h
    rw [download_loop]
    rcases henv : env r with _ | ⟨cls, body⟩
    · by_cases hle : max_retries ≤ r
      · simp [hle]
      · have hrec := ih env max_retries (r + 1) (by omega)
        simp [hle, hrec]
    · rcases cls
      case success =>
        rcases body with _ | b
        · by_cases hle : max_retries ≤ r
          · simp [hle]
          · have hrec := ih env max_retries (r + 1) (by omega)
            simp [hle, hrec]
        · rcases b <;> simp
      case clientError => simp
      case serverError =>
        by_cases hle : max_retries ≤ r
        · simp [hle]
        · have hrec := ih env max_retries (r + 1) (by omega)
          simp [hle, hrec]

theorem download_loop_attempts_aux :
    ∀ (n : ℕ) (env : ℕ → Attempt) (max_retries r : ℕ), r ≤ max_retries →
      max_retries - r ≤ n →
      (download_loop env max_retries r).attempts ≤ max_retries + 1 := by
  intro n
  induction n with
  | zero =>
    intro env max_retries r hr h
    have hle : max_retries ≤ r := by omega
    rw [download_loop]
    rcases henv : env r with _ | ⟨cls, body⟩
    · simp [hle]; omega
    · rcases cls
      case success =>
        rcases body with _ | b
        · simp [hle]; omega
        · rcases b <;> simp <;> omega
      case clientError => simp; omega
      case serverError => simp [hle]; omega
  | succ n ih =>
    intro env max_retries r hr h
    rw [download_loop]
    rcases henv : env r with _ | ⟨cls, body⟩
    · by_cases hle : max_retries ≤ r
      · simp [hle]; omega
      · have hrec := ih env max_retries (r + 1) (by omega) (by omega)
        simp [hle, hrec]
    · rcases cls
      case success =>
        rcases body with _ | b
        · by_cases hle : max_retries ≤ r
          · simp [hle]; omega
          · have hrec := ih env max_retries (r + 1) (by omega) (by omega)
            simp [hle, hrec]
        · rcases b <;> simp <;> omega
      case clientError => simp; omega
      case serverError =>
        by_cases hle : max_retries ≤ r
        · simp [hle]; omega
        · have hrec := ih env max_retries (r + 1) (by omega) (by omega)
          simp [hle, hrec]

theorem download_loop_all_retryable :
    ∀ (n : ℕ) (env : ℕ → Attempt) (max_retries r : ℕ),
      (∀ i, env i = none ∨ ∃ b, env i = some ⟨StatusClass.serverError, b⟩) →
      r ≤ max_retries → max_retries - r ≤ n →
      (∃ s, (download_loop env max_retries r).marks = [TileMark.failed s])
      ∧ (download_loop env max_retries r).attempts = max_retries + 1
      ∧ (download_loop env max_retries r).delays
          = (List.range (max_retries - r)).map fun k => 1000 * 2 ^ min (r + k + 1) 4 := by
  intro n
  induction n with
  | zero =>
    intro env max_retries r henv hr hn
    have hle : max_retries ≤ r := by omega
    have hrmax : r = max_retries := by omega
    rw [download_loop]
    rcases henv r with h | ⟨b, h⟩ <;> rw [h] <;> subst hrmax <;> simp
  | succ n ih =>
    intro env max_retries r henv hr hn
    by_cases hle : max_retries ≤ r
    · have hrmax : r = max_retries := by omega
      rw [download_loop]
      rcases henv r with h | ⟨b, h⟩ <;> rw [h] <;> subst hrmax <;> simp
    · have hrec := ih env max_retries (r + 1) henv (by omega) (by omega)
      obtain ⟨⟨s, hm⟩, ha, hd⟩ := hrec
      have hrange : List.range (max_retries - r)
          = 0 :: (List.range (max_retries - r - 1)).map Nat.succ := by
        have h1 : max_retries - r = (max_retries - r - 1) + 1 := by omega
        nth_rewrite 1 [h1]
        rw [List.range_succ_eq_map]
      have h2 : max_retries - (r + 1) = max_retries - r - 1 := by omega
      rw [download_loop]
      rcases henv r with h | ⟨b, h⟩ <;> rw [h] <;>
        refine ⟨⟨s, by simp [hle, hm]⟩, by simp [hle, ha], ?_⟩ <;>
        simp only [hle, if_false, hd, h2, hrange, List.map_cons, List.map_map] <;>
        simp [Function.comp] <;>
        all_goals
          intro a _
          congr 1
          omega

/-- An environment whose first attempt gets a 4xx response. -/
def clientErrEnv : ℕ → Attempt := fun _ => some ⟨StatusClass.clientError, none⟩

/-- C6 (confirmed): per-tile download error policy.  A 4xx response marks
the tile failed immediately — one attempt, no backoff.  A 2xx response
whose body is read and stored successfully marks it completed — one
attempt, no backoff.  When every attempt is a transport error or a 5xx
response, the loop makes exactly `retry_budget + 1` attempts, sleeping
`1000 * 2^min(k, 4)` ms after the k-th failed attempt (k = 1, 2, ...,
`retry_budget`; the code increments `retries` before computing
`1000 * 2u64.pow(retries.min(4))`), and then marks the tile failed.  In
every case — including a missing URL — exactly one terminal mark
(completed or failed) is recorded, and at most `retry_budget + 1`
attempts are made. -/
theorem C6_retry_policy (env : ℕ → Attempt) (retry_budget : ℕ) :
    (∀ url, (download_tile_with_url url env retry_budget).marks.length = 1)
    ∧ (∀ b, env 0 = some ⟨StatusClass.clientError, b⟩ →
        download_loop env retry_budget 0
          = ⟨[TileMark.failed ("HTTP 4xx")], [], 1⟩)
    ∧ (env 0 = some ⟨StatusClass.success, some true⟩ →
        download_loop env retry_budget 0 = ⟨[TileMark.completed], [], 1⟩)
    ∧ ((∀ i, env i = none ∨ ∃ b, env i = some ⟨StatusClass.serverError, b⟩) →
        (∃ s, (download_loop env retry_budget 0).marks = [TileMark.failed s])
        ∧ (download_loop env retry_budget 0).attempts = retry_budget + 1
        ∧ (download_loop env retry_budget 0).delays
            = (List.range retry_budget).map fun k => 1000 * 2 ^ min (k + 1) 4)
    ∧ ∀ url, (download_tile_with_url url env retry_budget).attempts ≤ retry_budget + 1 := by
  refine ⟨?_, ?_, ?_, ?_, ?_⟩
  · intro url
    rcases url with _ | u
    · rfl
    · exact download_loop_marks_aux (retry_budget + 1) env retry_budget 0 (by omega)
  · intro b hb
    rw [download_loop, hb]
  · intro hb
    rw [download_loop, hb]
  · intro henv
    have h := download_loop_all_retryable retry_budget env retry_budget 0 henv
      (by omega) (by omega)
    refine ⟨h.1, h.2.1, ?_⟩
    rw [h.2.2]
    simp
  · intro url
    rcases url with _ | u
    · simp [download_tile_with_url]
    · exact download_loop_attempts_aux retry_budget env retry_budget 0 (by omega) (by omega)

/-- C6 witness: the theorem applied to the all-4xx environment with
budget 3 — the tile is marked failed after a single attempt with no
backoff sleeps. -/
theorem C6_retry_policy_witness :
    clientErrEnv 0 = some ⟨StatusClass.clientError, none⟩
    ∧ download_loop clientErrEnv 3 0 = ⟨[TileMark.failed ("HTTP 4xx")], [], 1⟩ := by
  exact ⟨rfl, (C6_retry_policy clientErrEnv 3).2.1 none rfl⟩

/-- `X_PI` from `coords.rs` line 6: `PI * 3000.0 / 180.0`. -/
noncomputable def X_PI : ℝ := π * 3000 / 180

/-- Semi-major axis `A` from `coords.rs` line 7. -/
noncomputable def A : ℝ := 6378245

/-- Eccentricity squared `EE` from `coords.rs` line 8. -/
noncomputable def EE : ℝ := 0.006693421622965943

/-- `transform_lat` from `coords.rs` lines 53-59, verbatim. -/
noncomputable def transform_lat (x y : ℝ) : ℝ :=
  -100 + 2 * x + 3 * y + 0.2 * y * y + 0.1 * x * y + 0.2 * Real.sqrt |x|
    + (20 * Real.sin (6 * x * π) + 20 * Real.sin (2 * x * π)) * 2 / 3
    + (20 * Real.sin (y * π) + 40 * Real.sin (y / 3 * π)) * 2 / 3
    + (160 * Real.sin (y / 12 * π) + 320 * Real.sin (y * π / 30)) * 2 / 3

/-- `transform_lon` from `coords.rs` lines 61-67, verbatim. -/
noncomputable def transform_lon (x y : ℝ) : ℝ :=
  300 + x + 2 * y + 0.1 * x * x + 0.1 * x * y + 0.1 * Real.sqrt |x|
    + (20 * Real.sin (6 * x * π) + 20 * Real.sin (2 * x * π)) * 2 / 3
    + (20 * Real.sin (x * π) + 40 * Real.sin (x / 3 * π)) * 2 / 3
    + (150 * Real.sin (x / 12 * π) + 300 * Real.sin (x / 30 * π)) * 2 / 3

/-- `out_of_china` from `coords.rs` lines 49-51:
`!(72.004..=137.8347).contains(&lon) || !(0.8293..=55.8271).contains(&lat)`. -/
def out_of_china (lon lat : ℝ) : Prop :=
  ¬(72.004 ≤ lon ∧ lon ≤ 137.8347) ∨ ¬(0.8293 ≤ lat ∧ lat ≤ 55.8271)

open Classical in
/-- `gcj02_to_wgs84` from `coords.rs` lines 22-36, verbatim: points out
of china pass through unchanged; otherwise the closed-form inverse
offset is subtracted. -/
noncomputable def gcj02_to_wgs84 (gcj_lon gcj_lat : ℝ) : ℝ × ℝ :=
  if out_of_china gcj_lon gcj_lat then (gcj_lon, gcj_lat)
  else
    let dlat := transform_lat (gcj_lon - 105) (gcj_lat - 35)
    let dlon := transform_lon (gcj_lon - 105) (gcj_lat - 35)
    let radlat := gcj_lat / 180 * π
    let magic := 1 - EE * Real.sin radlat * Real.sin radlat
    let sqrtmagic := Real.sqrt magic
    let dlat2 := dlat * 180 / (A * (1 - EE) / (magic * sqrtmagic) * π)
    let dlon2 := dlon * 180 / (A / sqrtmagic * Real.cos radlat * π)
    (gcj_lon - dlon2, gcj_lat - dlat2)

/-- C8 (confirmed): datum identity outside the national envelope — for
every `(lon, lat)` with lon outside `[72.004, 137.8347]` or lat outside
`[0.8293, 55.8271]`, `gcj02_to_wgs84` returns exactly `(lon, lat)`. -/
theorem C8_datum_identity (lon lat : ℝ)
    (h : lon < 72.004 ∨ 137.8347 < lon ∨ lat < 0.8293 ∨ 55.8271 < lat) :
    gcj02_to_wgs84 lon lat = (lon, lat) := by
  have hoc : out_of_china lon lat := by
    rcases h with h | h | h | h
    · exact Or.inl fun hc => by linarith [hc.1]
    · exact Or.inl fun hc => by linarith [hc.2]
    · exact Or.inr fun hc => by linarith [hc.1]
    · exact Or.inr fun hc => by linarith [hc.2]
  rw [gcj02_to_wgs84, if_pos hoc]

/-- C8 witness: the theorem applied at `(lon, lat) = (200, 10)`,
outside the envelope on the east side. -/
theorem C8_datum_identity_witness :
    ((137.8347 : ℝ) < 200) ∧ gcj02_to_wgs84 200 10 = (200, 10) := by
  refine ⟨by norm_num, ?_⟩
  exact C8_datum_identity 200 10 (Or.inr (Or.inl (by norm_num)))

/-- `2u32.pow(z)` (`downloader.rs` line 18); the embedding is used with
`z < 32`, where the u32 power does not overflow. -/
def tileN (z : ℕ) : ℕ := 2 ^ z

/-- Longitude to tile column (`downloader.rs` lines 21-22):
`((lon + 180.0) / 360.0 * n as f64).floor() as u32`.  The `as u32` cast
saturates below at 0, as `Int.toNat` does. -/
noncomputable def lon_to_x (lon : ℝ) (z : ℕ) : ℕ :=
  (⌊(lon + 180) / 360 * (tileN z : ℝ)⌋).toNat

/-- The Web-Mercator factor `(1.0 - lat_rad.tan().asinh() / PI) / 2.0`
(`downloader.rs` lines 28-31); `lat.to_radians()` is `lat * π / 180`. -/
noncomputable def merc_factor (lat : ℝ) : ℝ :=
  (1 - Real.arsinh (Real.tan (lat * π / 180)) / π) / 2

/-- Latitude to tile row (`downloader.rs` lines 28-31):
`(merc_factor * n as f64).floor() as u32`. -/
noncomputable def lat_to_y (lat : ℝ) (z : ℕ) : ℕ :=
  (⌊merc_factor lat * (tileN z : ℝ)⌋).toNat

/-- `x_min` of `calculate_tiles`/`estimate_tiles` for one zoom level. -/
noncomputable def x_min (b : Bounds) (z : ℕ) : ℕ := lon_to_x b.west z

/-- `x_max` of `calculate_tiles`/`estimate_tiles` for one zoom level. -/
noncomputable def x_max (b : Bounds) (z : ℕ) : ℕ := lon_to_x b.east z

/-- `y_min` of `calculate_tiles`/`estimate_tiles` (from `north`). -/
noncomputable def y_min (b : Bounds) (z : ℕ) : ℕ := lat_to_y b.north z

/-- `y_max` of `calculate_tiles`/`estimate_tiles` (from `south`). -/
noncomputable def y_max (b : Bounds) (z : ℕ) : ℕ := lat_to_y b.south z

/-- The tiles pushed for one zoom level by `calculate_tiles`
(`downloader.rs` lines 33-37): `for x in x_min..=x_max.min(n-1)` nested
over `for y in y_min..=y_max.min(n-1)`.  A Rust range `a..=b` with
`a > b` is empty, which the truncated count `b + 1 - a` reproduces. -/
noncomputable def tiles_for_zoom (b : Bounds) (z : ℕ) : List TileCoord :=
  (List.range' (x_min b z) (min (x_max b z) (tileN z - 1) + 1 - x_min b z)).flatMap fun x =>
    (List.range' (y_min b z) (min (y_max b z) (tileN z - 1) + 1 - y_min b z)).map fun y =>
      ⟨z, x, y⟩

/-- `calculate_tiles` (`downloader.rs` lines 14-41). -/
noncomputable def calculate_tiles (b : Bounds) (zoom_levels : List ℕ) : List TileCoord :=
  zoom_levels.flatMap (tiles_for_zoom b)

/-- Wrapping u32 arithmetic: the value of a Rust u32 expression computed
in ℤ, reduced mod `2^32` (release-mode overflow semantics). -/
def u32_wrap (i : ℤ) : ℕ := (i % 4294967296).toNat

/-- The per-level count of `estimate_tiles` (`downloader.rs` lines
62-64): `x_count = (x_max.min(n-1) - x_min + 1) as u64` (u32 subtraction
that wraps on underflow) times the same for y, multiplied in u64. -/
noncomputable def level_count (b : Bounds) (z : ℕ) : ℕ :=
  u32_wrap ((min (x_max b z) (tileN z - 1) : ℤ) - x_min b z + 1)
    * u32_wrap ((min (y_max b z) (tileN z - 1) : ℤ) - y_min b z + 1)

/-- `estimate_tiles(...).tiles_per_level` (`downloader.rs` line 66). -/
noncomputable def estimate_tiles_per_level (b : Bounds) (zs : List ℕ) : List (ℕ × ℕ) :=
  zs.map fun z => (z, level_count b z)

/-- `estimate_tiles(...).total_tiles` (`downloader.rs` line 67): the
u64 accumulation of the per-level counts. -/
noncomputable def estimate_tiles_total (b : Bounds) (zs : List ℕ) : ℕ :=
  (zs.map (level_count b)).sum % 2 ^ 64

/-- `estimate_tiles(...).estimated_size_mb` (`downloader.rs` line 71). -/
noncomputable def estimate_size_mb (b : Bounds) (zs : List ℕ) : ℝ :=
  (estimate_tiles_total b zs : ℝ) * 20 / 1024

open Classical in
/-- `create_tile_task` (`commands.rs` lines 50-93) restricted to the
stored `total_tiles`: the command rejects invalid bounds and otherwise
stores `calculate_tiles(&bounds, &zooms).len()` as the task's
`total_tiles`. -/
noncomputable def create_tile_task_total (b : Bounds) (zs : List ℕ) : Option ℕ :=
  if b.is_valid then some (calculate_tiles b zs).length else none

theorem length_grid (g : ℕ → ℕ → TileCoord) : ∀ (m a b k : ℕ),
    ((List.range' a m).flatMap fun x => (List.range' b k).map (g x)).length = m * k := by
  intro m
  induction m with
  | zero => intro a b k; simp
  | succ n ih =>
    intro a b k
    rw [List.range'_succ, List.flatMap_cons, List.length_append, List.length_map,
      List.length_range', ih]
    ring

theorem cubic_mono {a b : ℝ} (ha : 0 ≤ a) (hab : a ≤ b) (hb : b ≤ 1) :
    a - a ^ 3 / 6 ≤ b - b ^ 3 / 6 := by
  nlinarith [mul_nonneg (sub_nonneg.2 hab)
    (by nlinarith : (0:ℝ) ≤ 6 - (a ^ 2 + a * b + b ^ 2))]

theorem sin_cos_bound_of_mem {x lo hi : ℝ} (h1 : lo ≤ x) (h2 : x ≤ hi)
    (h0 : 0 ≤ lo) (hh : hi ≤ 1) :
    (lo - lo ^ 3 / 6 - 5 / 96 * hi ^ 4 ≤ Real.sin x
      ∧ Real.sin x ≤ hi - hi ^ 3 / 6 + 5 / 96 * hi ^ 4)
    ∧ (1 - hi ^ 2 / 2 - 5 / 96 * hi ^ 4 ≤ Real.cos x
      ∧ Real.cos x ≤ 1 - lo ^ 2 / 2 + 5 / 96 * hi ^ 4) := by
  have hx0 : 0 ≤ x := le_trans h0 h1
  have hax : |x| ≤ 1 := by rw [abs_of_nonneg hx0]; linarith
  have hs := Real.sin_bound hax
  have hc := Real.cos_bound hax
  rw [abs_sub_le_iff, abs_of_nonneg hx0] at hs hc
  obtain ⟨hs1, hs2⟩ := hs
  obtain ⟨hc1, hc2⟩ := hc
  have hp4 : x ^ 4 ≤ hi ^ 4 := pow_le_pow_left hx0 h2 4
  have hmono1 : lo - lo ^ 3 / 6 ≤ x - x ^ 3 / 6 := cubic_mono h0 h1 (le_trans h2 hh)
  have hmono2 : x - x ^ 3 / 6 ≤ hi - hi ^ 3 / 6 := cubic_mono hx0 h2 hh
  have hsq1 : lo ^ 2 ≤ x ^ 2 := pow_le_pow_left h0 h1 2
  have hsq2 : x ^ 2 ≤ hi ^ 2 := pow_le_pow_left hx0 h2 2
  refine ⟨⟨by nlinarith, by nlinarith⟩, ⟨by nlinarith, by nlinarith⟩⟩

theorem sin_cos_double {t slo shi clo chi : ℝ}
    (hs1 : slo ≤ Real.sin t) (hs2 : Real.sin t ≤ shi)
    (hc1 : clo ≤ Real.cos t) (hc2 : Real.cos t ≤ chi)
    (h1 : 0 ≤ slo) (h2 : 0 ≤ clo) :
    (2 * slo * clo ≤ Real.sin (2 * t) ∧ Real.sin (2 * t) ≤ 2 * shi * chi)
    ∧ (1 - 2 * shi ^ 2 ≤ Real.cos (2 * t) ∧ Real.cos (2 * t) ≤ 1 - 2 * slo ^ 2) := by
  have hsin0 : 0 ≤ Real.sin t := le_trans h1 hs1
  have hcos0 : 0 ≤ Real.cos t := le_trans h2 hc1
  have hpy := Real.sin_sq_add_cos_sq t
  have hm1 : slo * clo ≤ Real.sin t * Real.cos t := mul_le_mul hs1 hc1 h2 hsin0
  have hm2 : Real.sin t * Real.cos t ≤ shi * chi :=
    mul_le_mul hs2 hc2 hcos0 (le_trans hsin0 hs2)
  have hq1 : slo ^ 2 ≤ Real.sin t ^ 2 := pow_le_pow_left h1 hs1 2
  have hq2 : Real.sin t ^ 2 ≤ shi ^ 2 := pow_le_pow_left hsin0 hs2 2
  rw [Real.sin_two_mul, Real.cos_two_mul]
  refine ⟨⟨by linarith, by linarith⟩, ⟨by nlinarith, by nlinarith⟩⟩

theorem sinCos_cAngle :
    ((0.086267191521055574 : ℝ) ≤ Real.sin (49489 * π / 1800000)
      ∧ Real.sin (49489 * π / 1800000) ≤ 0.086267284131288637)
    ∧ ((0.996272028974929524 : ℝ) ≤ Real.cos (49489 * π / 1800000)
      ∧ Real.cos (49489 * π / 1800000) ≤ 0.996272036964480156) := by
  have hpi1 := Real.pi_gt_d20
  have hpi2 := Real.pi_lt_d20
  have hd1 : (0.021593649837986844 : ℝ) ≤ 49489 * π / 7200000 := by linarith
  have hd2 : 49489 * π / 7200000 ≤ (0.021593649837986845 : ℝ) := by linarith
  have h0 := sin_cos_bound_of_mem hd1 hd2 (by norm_num) (by norm_num)
  have h1 := sin_cos_double h0.1.1 h0.1.2 h0.2.1 h0.2.2 (by norm_num) (by norm_num)
  rw [show 2 * (49489 * π / 7200000) = 49489 * π / 3600000 from by ring] at h1
  have h2 := sin_cos_double h1.1.1 h1.1.2 h1.2.1 h1.2.2 (by norm_num) (by norm_num)
  rw [show 2 * (49489 * π / 3600000) = 49489 * π / 1800000 from by ring] at h2
  exact ⟨⟨le_trans (by norm_num) h2.1.1, le_trans h2.1.2 (by norm_num)⟩,
         ⟨le_trans (by norm_num) h2.2.1, le_trans h2.2.2 (by norm_num)⟩⟩

theorem sinCos_thetaN :
    ((0.642089377930579199 : ℝ) ≤ Real.sin (799 * π / 3600)
      ∧ Real.sin (799 * π / 3600) ≤ 0.642145130438458046)
    ∧ ((0.766588411966423695 : ℝ) ≤ Real.cos (799 * π / 3600)
      ∧ Real.cos (799 * π / 3600) ≤ 0.766624454222384840) := by
  have hpi1 := Real.pi_gt_d20
  have hpi2 := Real.pi_lt_d20
  have hd1 : (0.087157379521466833 : ℝ) ≤ 799 * π / 28800 := by linarith
  have hd2 : 799 * π / 28800 ≤ (0.087157379521466834 : ℝ) := by linarith
  have h0 := sin_cos_bound_of_mem hd1 hd2 (by norm_num) (by norm_num)
  have h1 := sin_cos_double h0.1.1 h0.1.2 h0.2.1 h0.2.2 (by norm_num) (by norm_num)
  rw [show 2 * (799 * π / 28800) = 799 * π / 14400 from by ring] at h1
  have h2 := sin_cos_double h1.1.1 h1.1.2 h1.2.1 h1.2.2 (by norm_num) (by norm_num)
  rw [show 2 * (799 * π / 14400) = 799 * π / 7200 from by ring] at h2
  have h3 := sin_cos_double h2.1.1 h2.1.2 h2.2.1 h2.2.2 (by norm_num) (by norm_num)
  rw [show 2 * (799 * π / 7200) = 799 * π / 3600 from by ring] at h3
  exact ⟨⟨le_trans (by norm_num) h3.1.1, le_trans h3.1.2 (by norm_num)⟩,
         ⟨le_trans (by norm_num) h3.2.1, le_trans h3.2.2 (by norm_num)⟩⟩

theorem sinCos_thetaS :
    ((0.641420299570672864 : ℝ) ≤ Real.sin (133 * π / 600)
      ∧ Real.sin (133 * π / 600) ≤ 0.641475759850267824)
    ∧ ((0.767148578225273571 : ℝ) ≤ Real.cos (133 * π / 600)
      ∧ Real.cos (133 * π / 600) ≤ 0.767184393027399072) := by
  have hpi1 := Real.pi_gt_d20
  have hpi2 := Real.pi_lt_d20
  have hd1 : (0.087048296443217187 : ℝ) ≤ 133 * π / 4800 := by linarith
  have hd2 : 133 * π / 4800 ≤ (0.087048296443217188 : ℝ) := by linarith
  have h0 := sin_cos_bound_of_mem hd1 hd2 (by norm_num) (by norm_num)
  have h1 := sin_cos_double h0.1.1 h0.1.2 h0.2.1 h0.2.2 (by norm_num) (by norm_num)
  rw [show 2 * (133 * π / 4800) = 133 * π / 2400 from by ring] at h1
  have h2 := sin_cos_double h1.1.1 h1.1.2 h1.2.1 h1.2.2 (by norm_num) (by norm_num)
  rw [show 2 * (133 * π / 2400) = 133 * π / 1200 from by ring] at h2
  have h3 := sin_cos_double h2.1.1 h2.1.2 h2.2.1 h2.2.2 (by norm_num) (by norm_num)
  rw [show 2 * (133 * π / 1200) = 133 * π / 600 from by ring] at h3
  exact ⟨⟨le_trans (by norm_num) h3.1.1, le_trans h3.1.2 (by norm_num)⟩,
         ⟨le_trans (by norm_num) h3.2.1, le_trans h3.2.2 (by norm_num)⟩⟩

theorem exp_partial_sum_13 (x : ℝ) :
    ∑ i ∈ Finset.range 13, x ^ i / (Nat.factorial i : ℝ)
      = 1 + x + x ^ 2 / 2 + x ^ 3 / 6 + x ^ 4 / 24 + x ^ 5 / 120 + x ^ 6 / 720
        + x ^ 7 / 5040 + x ^ 8 / 40320 + x ^ 9 / 362880 + x ^ 10 / 3628800
        + x ^ 11 / 39916800 + x ^ 12 / 479001600 := by
  simp [Finset.sum_range_succ, Nat.factorial]

theorem exp_t0_lower : (2.142567671695692368 : ℝ) ≤ Real.exp 0.762004956382192280 := by
  have h := Real.sum_le_exp_of_nonneg
    (show (0:ℝ) ≤ 0.762004956382192280 by norm_num) 13
  rw [exp_partial_sum_13] at h
  refine le_trans ?_ h
  norm_num

theorem exp_t2_lower : (2.140104095887909449 : ℝ) ≤ Real.exp 0.760854470791278049 := by
  have h := Real.sum_le_exp_of_nonneg
    (show (0:ℝ) ≤ 0.760854470791278049 by norm_num) 13
  rw [exp_partial_sum_13] at h
  refine le_trans ?_ h
  norm_num

theorem exp_pi4_lower : (2.193280050730655734 : ℝ) ≤ Real.exp 0.785398163397448309 := by
  have h := Real.sum_le_exp_of_nonneg
    (show (0:ℝ) ≤ 0.785398163397448309 by norm_num) 13
  rw [exp_partial_sum_13] at h
  refine le_trans ?_ h
  norm_num

theorem exp_t1_upper : Real.exp 0.761621461185220871 ≤ (2.141746164821498633 : ℝ) := by
  have h := Real.exp_bound' (show (0:ℝ) ≤ 0.761621461185220871 by norm_num)
    (show (0.761621461185220871:ℝ) ≤ 1 by norm_num) (n := 13) (by norm_num)
  rw [exp_partial_sum_13] at h
  refine le_trans h ?_
  have hf : (Nat.factorial 13 : ℝ) = 6227020800 := by norm_num [Nat.factorial]
  rw [hf]
  norm_num

theorem exp_t3_upper : Real.exp 0.760470975594306640 ≤ (2.139283533601973050 : ℝ) := by
  have h := Real.exp_bound' (show (0:ℝ) ≤ 0.760470975594306640 by norm_num)
    (show (0.760470975594306640:ℝ) ≤ 1 by norm_num) (n := 13) (by norm_num)
  rw [exp_partial_sum_13] at h
  refine le_trans h ?_
  have hf : (Nat.factorial 13 : ℝ) = 6227020800 := by norm_num [Nat.factorial]
  rw [hf]
  norm_num

theorem sinh_lower_of_exp {t E c : ℝ} (hE : E ≤ Real.exp t) (hE0 : 0 < E)
    (htar : c ≤ (E - E⁻¹) / 2) : c ≤ Real.sinh t := by
  rw [Real.sinh_eq, Real.exp_neg]
  have h1 : (Real.exp t)⁻¹ ≤ E⁻¹ := inv_le_inv_of_le hE0 hE
  linarith

theorem sinh_upper_of_exp {t E c : ℝ} (hE : Real.exp t ≤ E)
    (htar : (E - E⁻¹) / 2 ≤ c) : Real.sinh t ≤ c := by
  have h0 : 0 < Real.exp t := Real.exp_pos t
  rw [Real.sinh_eq, Real.exp_neg]
  have h1 : E⁻¹ ≤ (Real.exp t)⁻¹ := inv_le_inv_of_le h0 hE
  linarith

theorem sinh_1987_lower : (0.837918978062847 : ℝ) ≤ Real.sinh (1987 * π / 8192) := by
  have hpi1 := Real.pi_gt_d20
  have ht : (0.762004956382192280 : ℝ) ≤ 1987 * π / 8192 := by linarith
  calc (0.837918978062847 : ℝ)
      ≤ Real.sinh 0.762004956382192280 :=
        sinh_lower_of_exp exp_t0_lower (by norm_num) (by norm_num)
    _ ≤ Real.sinh (1987 * π / 8192) := Real.sinh_le_sinh.mpr ht

theorem sinh_1986_upper : Real.sinh (1986 * π / 8192) ≤ (0.837418713161688 : ℝ) := by
  have hpi2 := Real.pi_lt_d20
  have ht : 1986 * π / 8192 ≤ (0.761621461185220871 : ℝ) := by linarith
  calc Real.sinh (1986 * π / 8192)
      ≤ Real.sinh 0.761621461185220871 := Real.sinh_le_sinh.mpr ht
    _ ≤ (0.837418713161688 : ℝ) := sinh_upper_of_exp exp_t1_upper (by norm_num)

theorem sinh_1984_lower : (0.836418552750556 : ℝ) ≤ Real.sinh (1984 * π / 8192) := by
  have hpi1 := Real.pi_gt_d20
  have ht : (0.760854470791278049 : ℝ) ≤ 1984 * π / 8192 := by linarith
  calc (0.836418552750556 : ℝ)
      ≤ Real.sinh 0.760854470791278049 :=
        sinh_lower_of_exp exp_t2_lower (by norm_num) (by norm_num)
    _ ≤ Real.sinh (1984 * π / 8192) := Real.sinh_le_sinh.mpr ht

theorem sinh_1983_upper : Real.sinh (1983 * π / 8192) ≤ (0.835918657102603 : ℝ) := by
  have hpi2 := Real.pi_lt_d20
  have ht : 1983 * π / 8192 ≤ (0.760470975594306640 : ℝ) := by linarith
  calc Real.sinh (1983 * π / 8192)
      ≤ Real.sinh 0.760470975594306640 := Real.sinh_le_sinh.mpr ht
    _ ≤ (0.835918657102603 : ℝ) := sinh_upper_of_exp exp_t3_upper (by norm_num)

theorem sinh_pi_lower : (11.548739357102 : ℝ) ≤ Real.sinh π := by
  have hpi1 := Real.pi_gt_d20
  have hx : (0.785398163397448309 : ℝ) ≤ π / 4 := by linarith
  have hE2 : (2.193280050730655734 : ℝ) ≤ Real.exp (π / 4) :=
    le_trans exp_pi4_lower (Real.exp_le_exp.mpr hx)
  have h4 : Real.exp π = Real.exp (π / 4) ^ 4 := by
    rw [← Real.exp_nat_mul]
    congr 1
    push_cast
    ring
  have hEp : (2.193280050730655734 : ℝ) ^ 4 ≤ Real.exp π := by
    rw [h4]
    exact pow_le_pow_left (by norm_num) hE2 4
  exact sinh_lower_of_exp hEp (by norm_num) (by norm_num)

/-- The key numeric fact behind clamping at the latitude limit 85.0511 of
`Bounds::is_valid`: `tan(85.0511°) < sinh(π)`, i.e. the Web-Mercator
y-factor stays inside `(0, 1)` on the whole valid latitude range
(85.0511 < atan(sinh π)/° = 85.05112878…). -/
theorem tan_85_lt_sinh_pi : Real.tan (85.0511 * π / 180) < Real.sinh π := by
  obtain ⟨⟨hs1, hs2⟩, ⟨hc1, hc2⟩⟩ := sinCos_cAngle
  have hang : (85.0511 : ℝ) * π / 180 = π / 2 - 49489 * π / 1800000 := by
    rw [show (85.0511 : ℝ) = 850511 / 10000 from by norm_num]
    ring
  rw [hang, Real.tan_eq_sin_div_cos, Real.sin_pi_div_two_sub, Real.cos_pi_div_two_sub]
  calc Real.cos (49489 * π / 1800000) / Real.sin (49489 * π / 1800000)
      ≤ 0.996272036964480156 / 0.086267191521055574 :=
        div_le_div (by norm_num) hc2 (by norm_num) hs1
    _ < 11.548739357102 := by norm_num
    _ ≤ Real.sinh π := sinh_pi_lower

theorem arsinh_tan_thetaN_upper :
    Real.arsinh (Real.tan (799 * π / 3600)) ≤ 1987 * π / 8192 := by
  obtain ⟨⟨hs1, hs2⟩, ⟨hc1, hc2⟩⟩ := sinCos_thetaN
  have htan : Real.tan (799 * π / 3600) ≤ Real.sinh (1987 * π / 8192) := by
    rw [Real.tan_eq_sin_div_cos]
    calc Real.sin (799 * π / 3600) / Real.cos (799 * π / 3600)
        ≤ 0.642145130438458046 / 0.766588411966423695 :=
          div_le_div (by norm_num) hs2 (by norm_num) hc1
      _ ≤ (0.837918978062847 : ℝ) := by norm_num
      _ ≤ Real.sinh (1987 * π / 8192) := sinh_1987_lower
  have h := Real.arsinh_le_arsinh.mpr htan
  rwa [Real.arsinh_sinh] at h

theorem arsinh_tan_thetaN_lower :
    1986 * π / 8192 < Real.arsinh (Real.tan (799 * π / 3600)) := by
  obtain ⟨⟨hs1, hs2⟩, ⟨hc1, hc2⟩⟩ := sinCos_thetaN
  have htan : Real.sinh (1986 * π / 8192) < Real.tan (799 * π / 3600) := by
    rw [Real.tan_eq_sin_div_cos]
    calc Real.sinh (1986 * π / 8192)
        ≤ (0.837418713161688 : ℝ) := sinh_1986_upper
      _ < 0.642089377930579199 / 0.766624454222384840 := by norm_num
      _ ≤ Real.sin (799 * π / 3600) / Real.cos (799 * π / 3600) :=
          div_le_div (le_trans (by norm_num) hs1) hs1
            (lt_of_lt_of_le (by norm_num) hc1) hc2
  have h := Real.arsinh_lt_arsinh.mpr htan
  rwa [Real.arsinh_sinh] at h

theorem arsinh_tan_thetaS_upper :
    Real.arsinh (Real.tan (133 * π / 600)) ≤ 1984 * π / 8192 := by
  obtain ⟨⟨hs1, hs2⟩, ⟨hc1, hc2⟩⟩ := sinCos_thetaS
  have htan : Real.tan (133 * π / 600) ≤ Real.sinh (1984 * π / 8192) := by
    rw [Real.tan_eq_sin_div_cos]
    calc Real.sin (133 * π / 600) / Real.cos (133 * π / 600)
        ≤ 0.641475759850267824 / 0.767148578225273571 :=
          div_le_div (by norm_num) hs2 (by norm_num) hc1
      _ ≤ (0.836418552750556 : ℝ) := by norm_num
      _ ≤ Real.sinh (1984 * π / 8192) := sinh_1984_lower
  have h := Real.arsinh_le_arsinh.mpr htan
  rwa [Real.arsinh_sinh] at h

theorem arsinh_tan_thetaS_lower :
    1983 * π / 8192 < Real.arsinh (Real.tan (133 * π / 600)) := by
  obtain ⟨⟨hs1, hs2⟩, ⟨hc1, hc2⟩⟩ := sinCos_thetaS
  have htan : Real.sinh (1983 * π / 8192) < Real.tan (133 * π / 600) := by
    rw [Real.tan_eq_sin_div_cos]
    calc Real.sinh (1983 * π / 8192)
        ≤ (0.835918657102603 : ℝ) := sinh_1983_upper
      _ < 0.641420299570672864 / 0.767184393027399072 := by norm_num
      _ ≤ Real.sin (133 * π / 600) / Real.cos (133 * π / 600) :=
          div_le_div (le_trans (by norm_num) hs1) hs1
            (lt_of_lt_of_le (by norm_num) hc1) hc2
  have h := Real.arsinh_lt_arsinh.mpr htan
  rwa [Real.arsinh_sinh] at h

/-- The bounds of scenario S1: `{N:39.95, S:39.90, E:116.45, W:116.40}`. -/
noncomputable def s1Bounds : Bounds := ⟨39.95, 39.90, 116.45, 116.40⟩

theorem merc_floor_eval (t : ℝ) (a : ℕ) (_ha : 1 ≤ a) (ha2 : a ≤ 8192)
    (hup : t ≤ (a : ℝ) * π / 8192) (hlo : ((a : ℝ) - 1) * π / 8192 < t) :
    (⌊(1 - t / π) / 2 * (16384 : ℝ)⌋).toNat = 8192 - a := by
  have hπ := Real.pi_pos
  have hu1 : t / π ≤ (a : ℝ) / 8192 := by
    have h' : t / π * π ≤ ((a : ℝ) / 8192) * π := by
      rw [div_mul_cancel₀ _ (ne_of_gt hπ)]
      calc t ≤ (a : ℝ) * π / 8192 := hup
        _ = ((a : ℝ) / 8192) * π := by ring
    exact le_of_mul_le_mul_right h' hπ
  have hu2 : ((a : ℝ) - 1) / 8192 < t / π := by
    have h' : (((a : ℝ) - 1) / 8192) * π < t / π * π := by
      rw [div_mul_cancel₀ _ (ne_of_gt hπ)]
      calc (((a : ℝ) - 1) / 8192) * π = ((a : ℝ) - 1) * π / 8192 := by ring
        _ < t := hlo
    exact lt_of_mul_lt_mul_right h' (le_of_lt hπ)
  have hcast : (((8192 - a : ℕ) : ℤ) : ℝ) = 8192 - (a : ℝ) := by
    push_cast [ha2]
    ring
  have hfl : ⌊(1 - t / π) / 2 * (16384 : ℝ)⌋ = ((8192 - a : ℕ) : ℤ) := by
    rw [Int.floor_eq_iff]
    constructor
    · rw [hcast]
      linarith
    · rw [hcast]
      linarith
  rw [hfl]
  exact Int.toNat_natCast _

theorem y_min_s1 : y_min s1Bounds 14 = 6205 := by
  have hθ : s1Bounds.north * π / 180 = 799 * π / 3600 := by
    show (39.95 : ℝ) * π / 180 = 799 * π / 3600
    rw [show (39.95 : ℝ) = 799 / 20 from by norm_num]
    ring
  have hn : ((tileN 14 : ℕ) : ℝ) = 16384 := by norm_num [tileN]
  unfold y_min lat_to_y merc_factor
  rw [hθ, hn]
  have h := merc_floor_eval (Real.arsinh (Real.tan (799 * π / 3600))) 1987
    (by norm_num) (by norm_num)
    (by exact_mod_cast arsinh_tan_thetaN_upper)
    (by push_cast; exact_mod_cast arsinh_tan_thetaN_lower)
  simpa using h

theorem y_max_s1 : y_max s1Bounds 14 = 6208 := by
  have hθ : s1Bounds.south * π / 180 = 133 * π / 600 := by
    show (39.90 : ℝ) * π / 180 = 133 * π / 600
    rw [show (39.90 : ℝ) = 399 / 10 from by norm_num]
    ring
  have hn : ((tileN 14 : ℕ) : ℝ) = 16384 := by norm_num [tileN]
  unfold y_max lat_to_y merc_factor
  rw [hθ, hn]
  have h := merc_floor_eval (Real.arsinh (Real.tan (133 * π / 600))) 1984
    (by norm_num) (by norm_num)
    (by exact_mod_cast arsinh_tan_thetaS_upper)
    (by push_cast; exact_mod_cast arsinh_tan_thetaS_lower)
  simpa using h

theorem x_min_s1 : x_min s1Bounds 14 = 13489 := by
  have hn : ((tileN 14 : ℕ) : ℝ) = 16384 := by norm_num [tileN]
  unfold x_min lon_to_x
  rw [show s1Bounds.west = (116.40 : ℝ) from rfl, hn]
  have hfl : ⌊((116.40 : ℝ) + 180) / 360 * 16384⌋ = (13489 : ℤ) := by
    rw [Int.floor_eq_iff]
    constructor <;> norm_num
  rw [hfl]
  rfl

theorem x_max_s1 : x_max s1Bounds 14 = 13491 := by
  have hn : ((tileN 14 : ℕ) : ℝ) = 16384 := by norm_num [tileN]
  unfold x_max lon_to_x
  rw [show s1Bounds.east = (116.45 : ℝ) from rfl, hn]
  have hfl : ⌊((116.45 : ℝ) + 180) / 360 * 16384⌋ = (13491 : ℤ) := by
    rw [Int.floor_eq_iff]
    constructor <;> norm_num
  rw [hfl]
  rfl

/-- The tiles the formulas actually produce over the S1 bounds at z=14:
columns 13489-13491, rows 6205-6208. -/
theorem s1_tiles_eval : calculate_tiles s1Bounds [14] =
    [⟨14, 13489, 6205⟩, ⟨14, 13489, 6206⟩, ⟨14, 13489, 6207⟩, ⟨14, 13489, 6208⟩,
     ⟨14, 13490, 6205⟩, ⟨14, 13490, 6206⟩, ⟨14, 13490, 6207⟩, ⟨14, 13490, 6208⟩,
     ⟨14, 13491, 6205⟩, ⟨14, 13491, 6206⟩, ⟨14, 13491, 6207⟩, ⟨14, 13491, 6208⟩] := by
  unfold calculate_tiles
  rw [List.flatMap_cons, List.flatMap_nil, List.append_nil]
  unfold tiles_for_zoom
  rw [x_min_s1, x_max_s1, y_min_s1, y_max_s1]
  norm_num [tileN]
  decide

theorem lon_to_x_mono {a b : ℝ} (h : a ≤ b) (z : ℕ) : lon_to_x a z ≤ lon_to_x b z := by
  unfold lon_to_x
  have hn : (0 : ℝ) ≤ (tileN z : ℝ) := by positivity
  refine Int.toNat_le_toNat (Int.floor_le_floor ?_)
  nlinarith

theorem lon_to_x_le_max {lon : ℝ} (h1 : lon < 180) (z : ℕ) :
    lon_to_x lon z ≤ tileN z - 1 := by
  unfold lon_to_x
  have hn : (0 : ℕ) < tileN z := pow_pos (by norm_num) z
  have hnr : (0 : ℝ) < (tileN z : ℝ) := by exact_mod_cast hn
  have hlt : (lon + 180) / 360 * (tileN z : ℝ) < (tileN z : ℝ) := by
    have h2 : (lon + 180) / 360 < 1 := by linarith
    nlinarith
  have hfl : ⌊(lon + 180) / 360 * (tileN z : ℝ)⌋ < (tileN z : ℤ) := by
    rw [Int.floor_lt]
    exact_mod_cast hlt
  rw [Int.toNat_le]
  omega

theorem rad_mem_tan_domain {lat : ℝ} (h1 : -85.0511 ≤ lat) (h2 : lat ≤ 85.0511) :
    -(π / 2) < lat * π / 180 ∧ lat * π / 180 < π / 2 := by
  have hπ := Real.pi_pos
  constructor <;> nlinarith

theorem tan_rad_mono {a b : ℝ} (h1 : -85.0511 ≤ a) (h2 : a ≤ b) (h3 : b ≤ 85.0511) :
    Real.tan (a * π / 180) ≤ Real.tan (b * π / 180) := by
  have hπ := Real.pi_pos
  have hma := rad_mem_tan_domain h1 (le_trans h2 h3)
  have hmb := rad_mem_tan_domain (le_trans h1 h2) h3
  rcases eq_or_lt_of_le h2 with he | hlt
  · rw [he]
  · exact le_of_lt
      (Real.tan_lt_tan_of_lt_of_lt_pi_div_two hma.1 hmb.2 (by nlinarith))

theorem merc_factor_anti {a b : ℝ} (h1 : -85.0511 ≤ a) (h2 : a ≤ b)
    (h3 : b ≤ 85.0511) : merc_factor b ≤ merc_factor a := by
  have hπ := Real.pi_pos
  have harsinh := Real.arsinh_le_arsinh.mpr (tan_rad_mono h1 h2 h3)
  unfold merc_factor
  have hdiv := (div_le_div_right hπ).mpr harsinh
  linarith

theorem merc_factor_lt_one {lat : ℝ} (h1 : -85.0511 ≤ lat) (h2 : lat ≤ 85.0511) :
    merc_factor lat < 1 := by
  have hπ := Real.pi_pos
  have htan : -Real.sinh π < Real.tan (lat * π / 180) := by
    have hge := tan_rad_mono (le_refl (-85.0511)) h1 h2
    have hneg : Real.tan (-(85.0511) * π / 180) = -Real.tan (85.0511 * π / 180) := by
      rw [show (-(85.0511) : ℝ) * π / 180 = -(85.0511 * π / 180) from by ring,
        Real.tan_neg]
    have hkey := tan_85_lt_sinh_pi
    rw [hneg] at hge
    linarith
  have harsinh : -π < Real.arsinh (Real.tan (lat * π / 180)) := by
    have h := Real.arsinh_lt_arsinh.mpr htan
    rw [show -Real.sinh π = Real.sinh (-π) from (Real.sinh_neg π).symm,
      Real.arsinh_sinh] at h
    exact h
  unfold merc_factor
  have hd : -1 < Real.arsinh (Real.tan (lat * π / 180)) / π := by
    rw [lt_div_iff hπ]
    linarith
  linarith

theorem lat_to_y_le_max {lat : ℝ} (h1 : -85.0511 ≤ lat) (h2 : lat ≤ 85.0511)
    (z : ℕ) : lat_to_y lat z ≤ tileN z - 1 := by
  unfold lat_to_y
  have hn : (0 : ℕ) < tileN z := pow_pos (by norm_num) z
  have hnr : (0 : ℝ) < (tileN z : ℝ) := by exact_mod_cast hn
  have hlt : merc_factor lat * (tileN z : ℝ) < (tileN z : ℝ) := by
    have := merc_factor_lt_one h1 h2
    nlinarith
  have hfl : ⌊merc_factor lat * (tileN z : ℝ)⌋ < (tileN z : ℤ) := by
    rw [Int.floor_lt]
    exact_mod_cast hlt
  rw [Int.toNat_le]
  omega

theorem lat_to_y_mono {a b : ℝ} (h1 : -85.0511 ≤ a) (h2 : a ≤ b)
    (h3 : b ≤ 85.0511) (z : ℕ) : lat_to_y b z ≤ lat_to_y a z := by
  unfold lat_to_y
  have hn : (0 : ℝ) ≤ (tileN z : ℝ) := by positivity
  refine Int.toNat_le_toNat (Int.floor_le_floor ?_)
  have := merc_factor_anti h1 h2 h3
  nlinarith

theorem tiles_for_zoom_spec (b : Bounds) (hb : b.is_valid) (z : ℕ) (_hz : z < 32) :
    x_min b z ≤ min (x_max b z) (tileN z - 1)
    ∧ y_min b z ≤ min (y_max b z) (tileN z - 1)
    ∧ (tiles_for_zoom b z).length
        = (min (x_max b z) (tileN z - 1) + 1 - x_min b z)
          * (min (y_max b z) (tileN z - 1) + 1 - y_min b z)
    ∧ ∀ t ∈ tiles_for_zoom b z, t.z = z ∧ t.x < 2 ^ z ∧ t.y < 2 ^ z := by
  obtain ⟨hns, hew, hn85, hs85, he180, hw180⟩ := hb
  have hs85' : (-85.0511 : ℝ) ≤ b.north := by linarith
  have hn85' : b.south ≤ (85.0511 : ℝ) := by linarith
  have hx1 : x_min b z ≤ x_max b z := lon_to_x_mono (le_of_lt hew) z
  have hx2 : x_min b z ≤ tileN z - 1 :=
    lon_to_x_le_max (lt_of_lt_of_le hew he180) z
  have hy1 : y_min b z ≤ y_max b z :=
    lat_to_y_mono hs85 (le_of_lt hns) hn85 z
  have hy2 : y_min b z ≤ tileN z - 1 := lat_to_y_le_max hs85' hn85 z
  have hone : (1 : ℕ) ≤ 2 ^ z := Nat.one_le_two_pow
  have hxm : min (x_max b z) (tileN z - 1) ≤ tileN z - 1 := min_le_right _ _
  have hym : min (y_max b z) (tileN z - 1) ≤ tileN z - 1 := min_le_right _ _
  refine ⟨le_min hx1 hx2, le_min hy1 hy2, length_grid _ _ _ _ _, ?_⟩
  intro t ht
  unfold tiles_for_zoom at ht
  rw [List.mem_flatMap] at ht
  obtain ⟨x, hx, ht⟩ := ht
  rw [List.mem_map] at ht
  obtain ⟨y, hy, rfl⟩ := ht
  rw [List.mem_range'] at hx hy
  obtain ⟨i, hi, rfl⟩ := hx
  obtain ⟨j, hj, rfl⟩ := hy
  refine ⟨rfl, ?_, ?_⟩ <;> simp only [tileN] at * <;> omega

/-- C3 counterexample: scenario S1 claims the enumeration over bounds
`{N:39.95, S:39.90, E:116.45, W:116.40}` at z=14 returns exactly the 4
tiles with x ∈ {13401, 13402} and y ∈ {6186, 6187}.  In fact the
formulas yield columns 13489-13491 and rows 6205-6208: the claimed tile
(14, 13401, 6186) is not among the enumerated tiles, and the count is
12, not 4. -/
theorem C3_s1_counterexample :
    (TileCoord.mk 14 13401 6186 ∉ calculate_tiles s1Bounds [14])
    ∧ (calculate_tiles s1Bounds [14]).length ≠ 4 := by
  rw [s1_tiles_eval]
  constructor
  · decide
  · decide

/-- C3 amended (the S1 values corrected): for every valid bounds and
every zoom level z < 32, the enumeration of `calculate_tiles` for that
level returns exactly `(min(x_max, 2^z-1) + 1 - x_min) * (min(y_max,
2^z-1) + 1 - y_min)` tiles — the claimed product formula with the maxima
clamped to `2^z - 1`, the ranges being nonempty (`x_min ≤ min(x_max,
2^z-1)` and `y_min ≤ min(y_max, 2^z-1)`) so the natural subtraction is
exact — and every enumerated coordinate satisfies `0 ≤ x, y < 2^z`.
Over the S1 bounds at z=14 the enumeration returns exactly the 12 tiles
with x ∈ {13489, 13490, 13491} and y ∈ {6205, 6206, 6207, 6208} (not
the 4 tiles claimed in the spec). -/
theorem C3_tile_enumeration (b : Bounds) (hb : b.is_valid) (z : ℕ) (hz : z < 32) :
    (x_min b z ≤ min (x_max b z) (tileN z - 1)
      ∧ y_min b z ≤ min (y_max b z) (tileN z - 1)
      ∧ (tiles_for_zoom b z).length
          = (min (x_max b z) (tileN z - 1) + 1 - x_min b z)
            * (min (y_max b z) (tileN z - 1) + 1 - y_min b z)
      ∧ ∀ t ∈ tiles_for_zoom b z, t.z = z ∧ t.x < 2 ^ z ∧ t.y < 2 ^ z)
    ∧ calculate_tiles s1Bounds [14] =
        [⟨14, 13489, 6205⟩, ⟨14, 13489, 6206⟩, ⟨14, 13489, 6207⟩, ⟨14, 13489, 6208⟩,
         ⟨14, 13490, 6205⟩, ⟨14, 13490, 6206⟩, ⟨14, 13490, 6207⟩, ⟨14, 13490, 6208⟩,
         ⟨14, 13491, 6205⟩, ⟨14, 13491, 6206⟩, ⟨14, 13491, 6207⟩, ⟨14, 13491, 6208⟩] :=
  ⟨tiles_for_zoom_spec b hb z hz, s1_tiles_eval⟩

theorem s1Bounds_valid : s1Bounds.is_valid := by
  unfold s1Bounds Bounds.is_valid
  norm_num

/-- C3 witness: the amended theorem applied to the S1 bounds at z=14;
the formula evaluates to 12 tiles there. -/
theorem C3_tile_enumeration_witness :
    s1Bounds.is_valid
    ∧ (tiles_for_zoom s1Bounds 14).length
        = (min (x_max s1Bounds 14) (tileN 14 - 1) + 1 - x_min s1Bounds 14)
          * (min (y_max s1Bounds 14) (tileN 14 - 1) + 1 - y_min s1Bounds 14)
    ∧ (tiles_for_zoom s1Bounds 14).length = 12 := by
  refine ⟨s1Bounds_valid,
    (C3_tile_enumeration s1Bounds s1Bounds_valid 14 (by norm_num)).1.2.2.1, ?_⟩
  have h := (C3_tile_enumeration s1Bounds s1Bounds_valid 14 (by norm_num)).1.2.2.1
  rw [h, x_min_s1, x_max_s1, y_min_s1, y_max_s1]
  norm_num [tileN]

theorem length_flatMap_eq (f : ℕ → List TileCoord) :
    ∀ zs : List ℕ, (zs.flatMap f).length = (zs.map fun z => (f z).length).sum := by
  intro zs
  induction zs with
  | nil => rfl
  | cons hd tl ih =>
    rw [List.flatMap_cons, List.length_append, List.map_cons, List.sum_cons, ih]

theorem level_count_eq (b : Bounds) (hb : b.is_valid) (z : ℕ) (hz : z < 32) :
    level_count b z = (tiles_for_zoom b z).length := by
  obtain ⟨hx, hy, hlen, _⟩ := tiles_for_zoom_spec b hb z hz
  have hxmle : min (x_max b z) (tileN z - 1) ≤ tileN z - 1 := min_le_right _ _
  have hymle : min (y_max b z) (tileN z - 1) ≤ tileN z - 1 := min_le_right _ _
  have hone : (1 : ℕ) ≤ tileN z := Nat.one_le_two_pow
  have hn32 : tileN z ≤ 2 ^ 31 := by
    unfold tileN
    exact pow_le_pow_right (by norm_num) (by omega)
  rw [hlen]
  unfold level_count u32_wrap
  have hfx : ((min (x_max b z) (tileN z - 1) : ℤ) - (x_min b z : ℤ) + 1)
      = ((min (x_max b z) (tileN z - 1) + 1 - x_min b z : ℕ) : ℤ) := by omega
  have hfy : ((min (y_max b z) (tileN z - 1) : ℤ) - (y_min b z : ℤ) + 1)
      = ((min (y_max b z) (tileN z - 1) + 1 - y_min b z : ℕ) : ℤ) := by omega
  have hbx : ((min (x_max b z) (tileN z - 1) + 1 - x_min b z : ℕ) : ℤ) < 4294967296 := by
    have : min (x_max b z) (tileN z - 1) + 1 - x_min b z ≤ 2 ^ 31 := by omega
    omega
  have hby : ((min (y_max b z) (tileN z - 1) + 1 - y_min b z : ℕ) : ℤ) < 4294967296 := by
    have : min (y_max b z) (tileN z - 1) + 1 - y_min b z ≤ 2 ^ 31 := by omega
    omega
  rw [hfx, hfy, Int.emod_eq_of_lt (by positivity) hbx,
    Int.emod_eq_of_lt (by positivity) hby, Int.toNat_natCast, Int.toNat_natCast]

/-- C10 amended: the estimator and the enumerator agree on every valid
bounds (the precondition `create_tile_task` enforces) and zoom levels
below 32 (the u32 domain): each per-level count of `estimate_tiles`
equals the number of tiles `calculate_tiles` enumerates at that level,
the total equals the enumerated length reduced by the u64 accumulator
width, and — whenever the enumerated length fits in u64, as every
realistic zoom list does — the `total_tiles` stored by
`create_tile_task` equals the count shown by `calculate_tiles_count`.
For invalid bounds the claim fails: the estimator's u32 subtraction
wraps on an empty column range (see the counterexample). -/
theorem C10_estimator_agreement (b : Bounds) (hb : b.is_valid) (zs : List ℕ)
    (hzs : ∀ z ∈ zs, z < 32) :
    estimate_tiles_per_level b zs
        = zs.map (fun z => (z, (tiles_for_zoom b z).length))
    ∧ estimate_tiles_total b zs = (calculate_tiles b zs).length % 2 ^ 64
    ∧ ((calculate_tiles b zs).length < 2 ^ 64 →
        create_tile_task_total b zs = some (estimate_tiles_total b zs)) := by
  have hmap : zs.map (level_count b)
      = zs.map fun z => (tiles_for_zoom b z).length :=
    List.map_congr_left fun z hz => level_count_eq b hb z (hzs z hz)
  have hsum : (calculate_tiles b zs).length
      = (zs.map fun z => (tiles_for_zoom b z).length).sum :=
    length_flatMap_eq (tiles_for_zoom b) zs
  refine ⟨?_, ?_, ?_⟩
  · unfold estimate_tiles_per_level
    exact List.map_congr_left fun z hz => by
      rw [level_count_eq b hb z (hzs z hz)]
  · unfold estimate_tiles_total
    rw [hmap, ← hsum]
  · intro hlt
    unfold create_tile_task_total
    rw [if_pos hb]
    unfold estimate_tiles_total
    rw [hmap, ← hsum, Nat.mod_eq_of_lt hlt]

/-- The bounds of the C10 counterexample: east < west (invalid), with
both latitudes 0 so the row computation is exact. -/
noncomputable def cexBounds : Bounds := ⟨0, 0, -100, 100⟩

theorem cex_x_min : x_min cexBounds 2 = 3 := by
  have hn : ((tileN 2 : ℕ) : ℝ) = 4 := by norm_num [tileN]
  unfold x_min lon_to_x
  rw [show cexBounds.west = (100 : ℝ) from rfl, hn]
  have hfl : ⌊((100 : ℝ) + 180) / 360 * 4⌋ = (3 : ℤ) := by
    rw [Int.floor_eq_iff]
    constructor <;> norm_num
  rw [hfl]
  rfl

theorem cex_x_max : x_max cexBounds 2 = 0 := by
  have hn : ((tileN 2 : ℕ) : ℝ) = 4 := by norm_num [tileN]
  unfold x_max lon_to_x
  rw [show cexBounds.east = (-100 : ℝ) from rfl, hn]
  have hfl : ⌊((-100 : ℝ) + 180) / 360 * 4⌋ = (0 : ℤ) := by
    rw [Int.floor_eq_iff]
    constructor <;> norm_num
  rw [hfl]
  rfl

theorem cex_y_eval : lat_to_y (0 : ℝ) 2 = 2 := by
  unfold lat_to_y merc_factor
  rw [show (0 : ℝ) * π / 180 = 0 from by ring, Real.tan_zero, Real.arsinh_zero]
  have hπ : π ≠ 0 := ne_of_gt Real.pi_pos
  have hval : ((1 : ℝ) - 0 / π) / 2 * ((tileN 2 : ℕ) : ℝ) = 2 := by
    rw [zero_div]
    norm_num [tileN]
  rw [hval]
  have hfl : ⌊(2 : ℝ)⌋ = (2 : ℤ) := by
    rw [Int.floor_eq_iff]
    constructor <;> norm_num
  rw [hfl]
  rfl

/-- C10 counterexample: at bounds `{N:0, S:0, E:-100, W:100}` (east <
west) and zoom list `[2]`, `calculate_tiles` enumerates no tile (the
Rust range `3..=0` is empty) but `estimate_tiles` computes the u32
expression `0 - 3 + 1`, which wraps to 4294967294 — the estimator and
the enumerator disagree, so the claim quantified over every bounds
value is false. -/
theorem C10_counterexample :
    estimate_tiles_total cexBounds [2] ≠ (calculate_tiles cexBounds [2]).length := by
  have hcalc : (calculate_tiles cexBounds [2]).length = 0 := by
    unfold calculate_tiles
    rw [List.flatMap_cons, List.flatMap_nil, List.append_nil]
    unfold tiles_for_zoom
    rw [cex_x_min, cex_x_max]
    norm_num [tileN]
  have hest : estimate_tiles_total cexBounds [2] = 4294967294 := by
    unfold estimate_tiles_total
    rw [List.map_cons, List.map_nil, List.sum_cons, List.sum_nil]
    unfold level_count
    rw [cex_x_min, cex_x_max]
    rw [show y_min cexBounds 2 = 2 from cex_y_eval, show y_max cexBounds 2 = 2 from cex_y_eval]
    norm_num [tileN, u32_wrap]
    decide
  rw [hcalc, hest]
  norm_num

/-- C10 witness: the amended theorem applied to the S1 bounds with zoom
list `[14]`. -/
theorem C10_estimator_agreement_witness :
    s1Bounds.is_valid
    ∧ estimate_tiles_total s1Bounds [14]
        = (calculate_tiles s1Bounds [14]).length % 2 ^ 64 := by
  refine ⟨s1Bounds_valid, (C10_estimator_agreement s1Bounds s1Bounds_valid [14] ?_).2.1⟩
  intro z hz
  rw [List.mem_singleton] at hz
  omega
